import Mathlib

/-!
# Verification of the hierarchical weighted aggregation engine

A shallow embedding of the scoring / classification / validation core of the
CI_opensource repository (the GeoJSON editor's weighted aggregation engine),
together with proofs of the spec's testable properties.

Python floats are modelled as exact rationals (`ℚ`); Python `dict`s keyed by
strings are modelled as association lists in insertion order with the usual
dict update/delete semantics; Python `None` / pandas `NaN` are modelled with
`Option`.  The `datetime.utcnow()` timestamps written by mutators are taken
as an explicit `now : String` argument.
-/

set_option maxHeartbeats 1000000

namespace CIEngine

/-! ## Association-list dictionary helpers (Python `dict` semantics) -/

/-- First-match lookup in an association list (Python `d[k]` / `d.get(k)`). -/
def alookup {α : Type} : List (String × α) → String → Option α
  | [], _ => none
  | (k, v) :: rest, key => if k = key then some v else alookup rest key

/-- Python `d[k] = v`: replace in place if the key is present, else append. -/
def dictSet {α : Type} : List (String × α) → String → α → List (String × α)
  | [], key, v => [(key, v)]
  | (k, w) :: rest, key, v =>
      if k = key then (key, v) :: rest else (k, w) :: dictSet rest key v

/-- Python `del d[k]`: drop the (first) entry with the given key. -/
def dictDel {α : Type} : List (String × α) → String → List (String × α)
  | [], _ => []
  | (k, w) :: rest, key => if k = key then rest else (k, w) :: dictDel rest key

/-- Python `sum(d.values())` for a rational-valued dict. -/
def sumVals (m : List (String × ℚ)) : ℚ := (m.map Prod.snd).sum

/-- Python `min(list)` on a possibly-empty list. -/
def listMin : List ℚ → Option ℚ
  | [] => none
  | x :: xs => some (xs.foldl min x)

/-- Python `max(list)` on a possibly-empty list. -/
def listMax : List ℚ → Option ℚ
  | [] => none
  | x :: xs => some (xs.foldl max x)

/-! ## Raw cell values and Python `float()` parsing -/

/-- One raw property value of a feature: JSON null, a number, or a string. -/
inductive Cell where
  | null : Cell
  | num : ℚ → Cell
  | text : String → Cell
  deriving DecidableEq, Repr

/-- Decimal digit test. -/
def isDigit (c : Char) : Bool := '0' ≤ c && c ≤ '9'

/-- Numeric value of a digit character. -/
def digVal (c : Char) : ℕ := c.toNat - '0'.toNat

/-- Reads a digit string as a natural number (most significant first). -/
def natOfDigits (l : List Char) : ℕ := l.foldl (fun a c => a * 10 + digVal c) 0

/-- Parse an unsigned decimal literal (`"12"`, `"12.5"`, `".5"`, `"12."`). -/
def parseUnsigned : List Char → Option ℚ
  | l =>
    let intPart := l.takeWhile isDigit
    match l.dropWhile isDigit with
    | [] => if intPart.isEmpty then none else some (natOfDigits intPart)
    | c :: fracPart =>
      if c = '.' && fracPart.all isDigit && !(intPart.isEmpty && fracPart.isEmpty) then
        some ((natOfDigits intPart : ℚ) + (natOfDigits fracPart : ℚ) / (10 ^ fracPart.length))
      else
        none

/-- Python `float(s)` on a simple decimal string, `none` when it raises. -/
def parseFloat : String → Option ℚ :=
  fun s =>
    match s.data with
    | '+' :: rest => parseUnsigned rest
    | '-' :: rest => (parseUnsigned rest).map Neg.neg
    | l => parseUnsigned l

/-- Python `float(v)` on a raw cell value, `none` when it raises. -/
def floatCell : Cell → Option ℚ
  | .null => none
  | .num q => some q
  | .text s => parseFloat s

/-- Python `str(v)` as used by `.astype(str)` comparisons on qualitative cells. -/
def cellStr : Cell → String
  | .null => "None"
  | .num q => toString q
  | .text s => s

/-! ## Field classification (`predict_field_type`) -/

/-- The values kept by the comprehension filter `v not in (None, "")`. -/
def keptValues (values : List Cell) : List Cell :=
  values.filter (fun v => v ≠ .null ∧ v ≠ .text "")

/-- The comprehension `[float(v) for v in values if v not in (None, "")]`: `none` when any kept
value fails to convert (the whole comprehension raises). -/
def parseAll (values : List Cell) : Option (List ℚ) :=
  (keptValues values).mapM floatCell

/-- Embeds `predict_field_type(values, threshold_unique=0.2)` from
`webapp/jsonEditor/pipeline/quant_qual_counter.py`: returns
`(predicted_type, unique, total)`. -/
def predict_field_type (values : List Cell) (threshold_unique : ℚ := 1/5) :
    String × ℕ × ℕ :=
  let total := values.length
  match parseAll values with
  | some numeric_values =>
    let r : ℚ := if total > 0 then (numeric_values.dedup.length : ℚ) / total else 0
    if r > threshold_unique then
      ("quantitative", numeric_values.dedup.length, total)
    else
      ("qualitative", values.dedup.length, total)
  | none => ("qualitative", values.dedup.length, total)

/-! ## Quantitative summarization (`calculate_quantitative_metrics`) -/

/-- Python `statistics.median`: middle element of the sorted list, or the average of
the two middle elements. -/
def medianQ (l : List ℚ) : ℚ :=
  let s := l.insertionSort (· ≤ ·)
  let n := s.length
  if n % 2 = 1 then s.getD (n / 2) 0
  else (s.getD (n / 2 - 1) 0 + s.getD (n / 2) 0) / 2

/-- Arithmetic mean (`statistics.mean`). -/
def meanQ (l : List ℚ) : ℚ := l.sum / l.length

/-- Sample variance `Σ (x - mean)² / (n - 1)` (the radicand of
`statistics.stdev`). -/
def sampleVar (l : List ℚ) : ℚ :=
  (l.map (fun x => (x - meanQ l) ^ 2)).sum / ((l.length : ℚ) - 1)

/-- The metrics dict returned by `calculate_quantitative_metrics`. -/
structure QuantMetrics where
  range : ℚ
  mean : ℚ
  median : ℚ
  stddev : ℚ
  max : ℚ
  min : ℚ
  deriving DecidableEq, Repr

/-- Embeds `calculate_quantitative_metrics(values)` from
`webapp/jsonEditor/pipeline/quant_qual_counter.py`.  `none` models the empty
dict `{}` returned on empty input, on a conversion failure, and on an empty
filtered list.  `sqrtQ` abstracts the floating-point square root used by
`statistics.stdev`. -/
def calculate_quantitative_metrics (sqrtQ : ℚ → ℚ) (values : List Cell) :
    Option QuantMetrics :=
  if values = [] then none
  else
    match parseAll values with
    | none => none
    | some numeric_values =>
      match listMax numeric_values, listMin numeric_values with
      | some mx, some mn =>
        some
          { range := mx - mn
            mean := meanQ numeric_values
            median := medianQ numeric_values
            stddev := if numeric_values.length > 1 then sqrtQ (sampleVar numeric_values) else 0
            max := mx
            min := mn }
      | _, _ => none

/-! ## Per-field statistics of `GeoJSONProcessor._calculate_statistics`
(quantitative branch, `runJsonEditor.py`) -/

/-- The quantitative stats record (`has_data=True` branch). -/
structure FieldStats where
  count : ℕ
  min : ℚ
  max : ℚ
  mean : ℚ
  std : ℚ
  median : ℚ
  deriving DecidableEq, Repr

/-- The per-value filter loop of `_calculate_statistics`: skip `None`, try
`float(v)`, and on failure `pass` (skip just that value). -/
def statsNumericValues (values : List Cell) : List ℚ :=
  values.filterMap (fun v => if v = .null then none else floatCell v)

/-- The quantitative branch of `GeoJSONProcessor._calculate_statistics`:
`none` models the `has_data: False` record.  `sqrtQ` abstracts the
floating-point square root inside `np.std`. -/
def calculate_statistics_quant (sqrtQ : ℚ → ℚ) (values : List Cell) :
    Option FieldStats :=
  let numeric_values := statsNumericValues values
  match listMin numeric_values, listMax numeric_values with
  | some mn, some mx =>
    some
      { count := numeric_values.length
        min := mn
        max := mx
        mean := numeric_values.sum / numeric_values.length
        std :=
          if numeric_values.length > 1 then
            sqrtQ ((numeric_values.map
              (fun x => (x - numeric_values.sum / numeric_values.length) ^ 2)).sum /
                numeric_values.length)
          else 0
        median := medianQ numeric_values }
  | _, _ => none

/-- Python `s.strip()`: drop leading and trailing whitespace. -/
def pyStrip (s : String) : String :=
  ⟨((s.data.dropWhile Char.isWhitespace).reverse.dropWhile Char.isWhitespace).reverse⟩

/-! ## Dataset scoring (the generated `Processor.process` of
`generate_dataset_python_code`, `runJsonEditor.py`) -/

/-- Per-feature value of `calculate_attribute_weighted_score`: the score
series starts at `0.0` and each `(attr_value, weight)` entry assigns
`weight / 100` to the rows whose string value equals the key (later entries
overwrite earlier ones, as in the Python loop). -/
def calculate_attribute_weighted_score (attributeWeights : List (String × ℚ))
    (value : String) : ℚ :=
  attributeWeights.foldl (fun acc p => if value = p.1 then p.2 / 100 else acc) 0

/-- The `fieldAttributes[field]` object as read by `process`: only its
`attributeWeights` key is consulted (`uniqueValues`, `valueCounts` and
`attributeMeta` are never read when scoring). -/
structure FieldAttrs where
  attributeWeights : List (String × ℚ)
  deriving DecidableEq, Repr

/-- The `normalized` series of the quantitative branch of `process`, at one
row.  `col` is the field's whole column, `cell` the row's value; `none`
models a `NaN` entry (an unparseable cell in a column that does get
normalized).  When the column has no numeric value or `max == min`, the
field is skipped, i.e. contributes `0` at every row. -/
def quantNormalized (col : List Cell) (cell : Cell) : Option ℚ :=
  let nums := col.filterMap floatCell
  match listMin nums, listMax nums with
  | some mn, some mx =>
    if mn < mx then (floatCell cell).map (fun v => (v - mn) / (mx - mn))
    else some 0
  | _, _ => some 0

/-- The product `normalized * field_weight`, the quantitative field's summand at one row. -/
def quantContribution (col : List Cell) (cell : Cell) (w : ℚ) : Option ℚ :=
  (quantNormalized col cell).map (· * w)

/-- The dataset configuration captured by the generated processor class. -/
structure DatasetConfig where
  selected_fields : List String
  field_weights : List (String × ℚ)
  field_types : List (String × String)
  field_attributes : List (String × FieldAttrs)
  deriving Repr

/-- NaN-propagating addition on scores (`none` is `NaN`). -/
def optAdd : Option ℚ → Option ℚ → Option ℚ
  | some x, some y => some (x + y)
  | _, _ => none

/-- One field's summand in the `process` loop at one row of the
field-filtered table `tbl`: `some 0` when the field is skipped
(`continue`, unknown type, qualitative without attributes, constant or
empty numeric column), `none` when the row's entry of a normalized
quantitative column is `NaN`. -/
def fieldContribution (cfg : DatasetConfig) (tbl : List (String × List Cell))
    (row : ℕ) (field : String) (w : ℚ) : Option ℚ :=
  match alookup tbl field with
  | none => some 0
  | some col =>
    let cell := (col.getD row .null)
    let ftype := (alookup cfg.field_types field).getD "unknown"
    if ftype = "quantitative" then
      quantContribution col cell w
    else if ftype = "qualitative" then
      match alookup cfg.field_attributes field with
      | some attrs =>
          some (calculate_attribute_weighted_score attrs.attributeWeights (cellStr cell) * w)
      | none => some 0
    else some 0

/-- The `weighted_score` that `process` assigns to one row: the table is
first restricted to the selected fields (`fields_to_keep`), then
`total_weighted_score` accumulates each weighted field's summand. -/
def processRowScore (cfg : DatasetConfig) (tbl : List (String × List Cell))
    (row : ℕ) : Option ℚ :=
  let tblSel := tbl.filter (fun c => cfg.selected_fields.contains c.1)
  cfg.field_weights.foldl
    (fun acc p => optAdd acc (fieldContribution cfg tblSel row p.1 p.2)) (some 0)

/-! ## `dynamic_weighting.compute_row_weight` (`pipeline/weighting.py`) -/

/-- Round-half-even on rationals (the tie-breaking rule of Python's
`round`). -/
def roundHalfEven (q : ℚ) : ℤ :=
  let f := ⌊q⌋
  let frac := q - f
  if frac < 1/2 then f
  else if frac > 1/2 then f + 1
  else if f % 2 = 0 then f else f + 1

/-- Python `round(x, 4)` on the rational model. -/
def round4 (q : ℚ) : ℚ := (roundHalfEven (q * 10000) : ℚ) / 10000

/-- Embeds `ensure_valid_weight`: negative weights become `0`, others are rounded
to 4 decimals (the `pd.isnull` branch cannot fire on a rational). -/
def ensure_valid_weight (w : ℚ) : ℚ :=
  if w < 0 then 0 else round4 (max w 0)

/-- One field's configuration inside `weighting_fields`. -/
structure WeightingField where
  weights : List (String × ℚ)
  importance : ℚ
  deriving Repr

/-- One field's term inside the `compute_row_weight` loop:
`ensure_valid_weight(weights.get(value, 0.0)) * importance` where `value` is
the row's stripped string value for the field (missing → `''`). -/
def rowFieldTerm (fc : WeightingField) (row : List (String × String))
    (field : String) : ℚ :=
  ensure_valid_weight
    ((alookup fc.weights (pyStrip ((alookup row field).getD ""))).getD 0) * fc.importance

/-- Embeds `compute_row_weight(row)` from `dynamic_weighting`. -/
def compute_row_weight (weighting_fields : List (String × WeightingField))
    (row : List (String × String)) : ℚ :=
  ensure_valid_weight
    (weighting_fields.foldl (fun acc p => acc + rowFieldTerm p.2 row p.1) 0)

/-! ## Grade validation (`webapp/pipeline/json_maker.py`) -/

/-- The total `sum((v if v is not None else 0) for v in grades.values())`. -/
def sumGrades (grades : List (String × Option ℚ)) : ℚ :=
  (grades.map (fun p => p.2.getD 0)).sum

/-- Embeds `normalize_grades(grades)`: true iff `abs(total - 1.0) < 1e-6`. -/
def normalize_grades (grades : List (String × Option ℚ)) : Bool :=
  |sumGrades grades - 1| < 1/1000000

/-- The grade check at the top of `create_dataset_json`: raises a
`ValueError` with a fixed message (carrying no sum) when
`normalize_grades` fails. -/
def create_dataset_json_check (field_grade_summary : List (String × Option ℚ)) :
    Except String Unit :=
  if normalize_grades field_grade_summary then .ok ()
  else .error "Field grades are not normalized; they must sum to 1."

/-! ## Entities (`webapp/jsonEditor/models.py`) -/

/-- The validation-error strings produced by `Dataset.validate`,
`Category.validate` and `Mode.validate`, as structured values: each
constructor stands for one f-string, and carries exactly the data the
f-string interpolates (so `fieldWeightSum t` is the message
`"Field weights should sum to 1.0, currently sum to {t:.3f}"`). -/
inductive VError where
  | datasetNameRequired
  | atLeastOneField
  | fieldMissingWeight (field : String)
  | fieldWeightSum (total : ℚ)
  | categoryNameRequired
  | mustContainDataset
  | datasetMissingWeight (id : String)
  | datasetWeightSum (total : ℚ)
  | modeNameRequired
  | useCaseRequired
  | mustContainCategory
  | categoryMissingWeight (id : String)
  | categoryWeightSum (total : ℚ)
  deriving DecidableEq, Repr

/-- The `Dataset` entity (the fields its `validate` reads; id, description,
source/preview/status metadata and timestamps are carried by the store key
or irrelevant to the verified behavior). -/
structure DatasetM where
  name : String
  selected_fields : List String
  field_types : List (String × String)
  field_weights : List (String × ℚ)
  deriving DecidableEq, Repr

/-- Embeds `Dataset.validate`: name present, at least one field, a weight
per selected field, and the 0.01-tolerance weight-sum check that reports
the actual sum. -/
def DatasetM.validate (d : DatasetM) : List VError :=
  (if pyStrip d.name = "" then [.datasetNameRequired] else []) ++
  (if d.selected_fields = [] then [.atLeastOneField] else []) ++
  (d.selected_fields.filterMap fun f =>
    if alookup d.field_weights f = none then some (.fieldMissingWeight f) else none) ++
  (if |sumVals d.field_weights - 1| > 1/100 then
    [.fieldWeightSum (sumVals d.field_weights)] else [])

/-- The `Category` entity: a weighted group of dataset ids. -/
structure Category where
  name : String
  datasets : List String
  dataset_weights : List (String × ℚ)
  updated_at : String
  deriving DecidableEq, Repr

/-- Embeds `Category.add_dataset`: append the id if absent, then set its
weight; `now` models `datetime.utcnow()`. -/
def Category.add_dataset (now : String) (c : Category) (dataset_id : String)
    (weight : ℚ) : Category :=
  { c with
    datasets := if dataset_id ∈ c.datasets then c.datasets else c.datasets ++ [dataset_id]
    dataset_weights := dictSet c.dataset_weights dataset_id weight
    updated_at := now }

/-- Embeds `Category.remove_dataset`: drop the id from the membership list
(first occurrence, as `list.remove`) and from the weight dict. -/
def Category.remove_dataset (now : String) (c : Category) (dataset_id : String) :
    Category :=
  { c with
    datasets := c.datasets.erase dataset_id
    dataset_weights := dictDel c.dataset_weights dataset_id
    updated_at := now }

/-- Proportional rescaling shared by `Category.normalize_weights` and
`Mode.normalize_weights`: divide every weight by the current total when it
is positive, else leave the dict untouched. -/
def normalizeMap (m : List (String × ℚ)) : List (String × ℚ) :=
  if 0 < sumVals m then m.map (fun p => (p.1, p.2 / sumVals m)) else m

/-- Embeds `Category.normalize_weights`. -/
def Category.normalize_weights (now : String) (c : Category) : Category :=
  { c with dataset_weights := normalizeMap c.dataset_weights, updated_at := now }

/-- Embeds `Category.validate`: name, non-empty membership, a weight per
member, and the 0.01-tolerance weight-sum check reporting the actual sum.
It performs no referential-integrity check against the dataset store. -/
def Category.validate (c : Category) : List VError :=
  (if pyStrip c.name = "" then [.categoryNameRequired] else []) ++
  (if c.datasets = [] then [.mustContainDataset] else []) ++
  (c.datasets.filterMap fun id =>
    if alookup c.dataset_weights id = none then some (.datasetMissingWeight id) else none) ++
  (if |sumVals c.dataset_weights - 1| > 1/100 then
    [.datasetWeightSum (sumVals c.dataset_weights)] else [])

/-- The `Mode` entity: a weighted group of category ids. -/
structure Mode where
  name : String
  use_case : String
  categories : List String
  category_weights : List (String × ℚ)
  updated_at : String
  deriving DecidableEq, Repr

/-- Embeds `Mode.add_category`. -/
def Mode.add_category (now : String) (m : Mode) (category_id : String)
    (weight : ℚ) : Mode :=
  { m with
    categories := if category_id ∈ m.categories then m.categories else m.categories ++ [category_id]
    category_weights := dictSet m.category_weights category_id weight
    updated_at := now }

/-- Embeds `Mode.remove_category`. -/
def Mode.remove_category (now : String) (m : Mode) (category_id : String) : Mode :=
  { m with
    categories := m.categories.erase category_id
    category_weights := dictDel m.category_weights category_id
    updated_at := now }

/-- Embeds `Mode.normalize_weights`. -/
def Mode.normalize_weights (now : String) (m : Mode) : Mode :=
  { m with category_weights := normalizeMap m.category_weights, updated_at := now }

/-- Embeds `Mode.validate`. -/
def Mode.validate (m : Mode) : List VError :=
  (if pyStrip m.name = "" then [.modeNameRequired] else []) ++
  (if pyStrip m.use_case = "" then [.useCaseRequired] else []) ++
  (if m.categories = [] then [.mustContainCategory] else []) ++
  (m.categories.filterMap fun id =>
    if alookup m.category_weights id = none then some (.categoryMissingWeight id) else none) ++
  (if |sumVals m.category_weights - 1| > 1/100 then
    [.categoryWeightSum (sumVals m.category_weights)] else [])

/-! ## Managers (`webapp/jsonEditor/managers.py`) -/

/-- The persisted state the dataset and category managers operate on:
`datasets.json` and `categories.json`, each a dict keyed by id. -/
structure HierarchyState where
  datasets : List (String × DatasetM)
  categories : List (String × Category)
  deriving DecidableEq, Repr

/-- Embeds `DatasetManager.delete_dataset`: remove the entry when present
and report success; the category store is not touched. -/
def delete_dataset (st : HierarchyState) (dataset_id : String) :
    Bool × HierarchyState :=
  if (alookup st.datasets dataset_id).isSome then
    (true, { st with datasets := dictDel st.datasets dataset_id })
  else
    (false, st)

/-! ## Mutation sequences for the membership invariant -/

/-- One `Category` membership mutation, with its call's timestamp. -/
inductive CatOp where
  | add (now dataset_id : String) (weight : ℚ)
  | remove (now dataset_id : String)

/-- Applies a sequence of `add_dataset` / `remove_dataset` calls. -/
def applyCatOps (ops : List CatOp) (c : Category) : Category :=
  ops.foldl
    (fun c op =>
      match op with
      | .add now id w => c.add_dataset now id w
      | .remove now id => c.remove_dataset now id) c

/-- One `Mode` membership mutation, with its call's timestamp. -/
inductive ModeOp where
  | add (now category_id : String) (weight : ℚ)
  | remove (now category_id : String)

/-- Applies a sequence of `add_category` / `remove_category` calls. -/
def applyModeOps (ops : List ModeOp) (m : Mode) : Mode :=
  ops.foldl
    (fun m op =>
      match op with
      | .add now id w => m.add_category now id w
      | .remove now id => m.remove_category now id) m

/-! ## Dictionary and list lemmas -/

theorem list_sum_div (l : List ℚ) (t : ℚ) : (l.map (· / t)).sum = l.sum / t := by
  induction l with
  | nil => simp
  | cons x xs ih => simp [ih, add_div]

theorem sumVals_map_div (m : List (String × ℚ)) (t : ℚ) :
    sumVals (m.map fun p => (p.1, p.2 / t)) = sumVals m / t := by
  unfold sumVals
  rw [List.map_map]
  have : (Prod.snd ∘ fun p : String × ℚ => (p.1, p.2 / t)) = (fun p : String × ℚ => p.2 / t) := by
    funext p; rfl
  rw [this, ← list_sum_div]
  rw [List.map_map]
  rfl

theorem normalizeMap_sum_pos (m : List (String × ℚ)) (h : 0 < sumVals m) :
    sumVals (normalizeMap m) = 1 := by
  unfold normalizeMap
  simp only [h, if_true]
  rw [sumVals_map_div, div_self (ne_of_gt h)]

theorem normalizeMap_nonpos (m : List (String × ℚ)) (h : ¬ 0 < sumVals m) :
    normalizeMap m = m := by
  unfold normalizeMap
  simp [h]

theorem normalizeMap_idem (m : List (String × ℚ)) :
    normalizeMap (normalizeMap m) = normalizeMap m := by
  by_cases h : 0 < sumVals m
  · have h1 : sumVals (normalizeMap m) = 1 := normalizeMap_sum_pos m h
    have h2 : normalizeMap (normalizeMap m) =
        if 0 < sumVals (normalizeMap m) then
          (normalizeMap m).map (fun p => (p.1, p.2 / sumVals (normalizeMap m)))
        else normalizeMap m := rfl
    rw [h2, h1]
    simp
  · rw [normalizeMap_nonpos m h, normalizeMap_nonpos m h]

/-- C3: the as-written claim fails on a negative-sum weight map: the sum is
non-zero, yet `normalize_weights` leaves the map untouched and it does not
end up summing to 1. -/
theorem C3_counterexample :
    sumVals (Category.mk "Cat" ["a"] [("a", -1)] "t0").dataset_weights ≠ 0 ∧
    ((Category.mk "Cat" ["a"] [("a", -1)] "t0").normalize_weights "t1").dataset_weights =
      (Category.mk "Cat" ["a"] [("a", -1)] "t0").dataset_weights ∧
    sumVals (((Category.mk "Cat" ["a"] [("a", -1)] "t0").normalize_weights "t1").dataset_weights) ≠ 1 := by
  refine ⟨by norm_num [sumVals], ?_, ?_⟩ <;>
    norm_num [Category.normalize_weights, normalizeMap, sumVals]

/-- C3 (amended): `normalize_weights` is idempotent on the weight map for
every `Category` and `Mode`; one call rescales the map to sum `1.0` when the
current sum is positive, and leaves the map unchanged when the sum is zero
or negative (the guard is `total_weight > 0`). -/
theorem C3_normalize_weights_idempotent :
    (∀ (now now2 : String) (c : Category),
      ((c.normalize_weights now).normalize_weights now2).dataset_weights =
        (c.normalize_weights now).dataset_weights) ∧
    (∀ (now : String) (c : Category), 0 < sumVals c.dataset_weights →
      sumVals ((c.normalize_weights now).dataset_weights) = 1) ∧
    (∀ (now : String) (c : Category), sumVals c.dataset_weights ≤ 0 →
      (c.normalize_weights now).dataset_weights = c.dataset_weights) ∧
    (∀ (now now2 : String) (m : Mode),
      ((m.normalize_weights now).normalize_weights now2).category_weights =
        (m.normalize_weights now).category_weights) ∧
    (∀ (now : String) (m : Mode), 0 < sumVals m.category_weights →
      sumVals ((m.normalize_weights now).category_weights) = 1) ∧
    (∀ (now : String) (m : Mode), sumVals m.category_weights ≤ 0 →
      (m.normalize_weights now).category_weights = m.category_weights) := by
  refine ⟨?_, ?_, ?_, ?_, ?_, ?_⟩
  · intro _ _ c; exact normalizeMap_idem c.dataset_weights
  · intro _ c h; exact normalizeMap_sum_pos c.dataset_weights h
  · intro _ c h; exact normalizeMap_nonpos c.dataset_weights (not_lt.mpr h)
  · intro _ _ m; exact normalizeMap_idem m.category_weights
  · intro _ m h; exact normalizeMap_sum_pos m.category_weights h
  · intro _ m h; exact normalizeMap_nonpos m.category_weights (not_lt.mpr h)

/-- C3 witness: the amended theorem applied to a concrete category with a
positive sum. -/
theorem C3_normalize_weights_idempotent_witness :
    0 < sumVals (Category.mk "C" ["a", "b"] [("a", 1), ("b", 3)] "t").dataset_weights ∧
    sumVals (((Category.mk "C" ["a", "b"] [("a", 1), ("b", 3)] "t").normalize_weights "t1").dataset_weights) = 1 :=
  ⟨by norm_num [sumVals],
   C3_normalize_weights_idempotent.2.1 "t1" (Category.mk "C" ["a", "b"] [("a", 1), ("b", 3)] "t")
     (by norm_num [sumVals])⟩

/-! ## Membership-list lemmas -/

theorem alookup_dictSet_self {α : Type} (m : List (String × α)) (k : String) (v : α) :
    alookup (dictSet m k v) k = some v := by
  induction m with
  | nil => simp [dictSet, alookup]
  | cons p rest ih =>
    by_cases h : p.1 = k
    · simp [dictSet, h, alookup]
    · simp [dictSet, h, alookup, ih]

theorem nodup_addMember {l : List String} {id : String} (h : l.Nodup) :
    (if id ∈ l then l else l ++ [id]).Nodup := by
  by_cases hm : id ∈ l
  · simpa [hm]
  · simp only [hm, if_false]
    rw [List.nodup_append]
    exact ⟨h, List.nodup_singleton id, by
      intro a ha hb
      rw [List.mem_singleton] at hb
      subst hb
      exact hm ha⟩

theorem count_addMember {l : List String} {id : String} (h : l.Nodup) :
    (if id ∈ l then l else l ++ [id]).count id = 1 := by
  by_cases hm : id ∈ l
  · simp only [hm, if_true]
    exact List.count_eq_one_of_mem h hm
  · simp only [hm, if_false, List.count_append, List.count_singleton]
    rw [List.count_eq_zero.mpr hm]
    simp

/-- C10: membership lists stay duplicate-free under any sequence of
`add_dataset` / `remove_dataset` (resp. `add_category` / `remove_category`)
calls, and right after `add_dataset(id, w)` the id occurs exactly once in
the membership list with weight `w` in the weight dict; adding an id that
is already a member updates the weight without appending a second list
entry. -/
theorem C10_membership_invariant :
    (∀ (ops : List CatOp) (c : Category), c.datasets.Nodup →
      (applyCatOps ops c).datasets.Nodup) ∧
    (∀ (ops : List ModeOp) (m : Mode), m.categories.Nodup →
      (applyModeOps ops m).categories.Nodup) ∧
    (∀ (now id : String) (w : ℚ) (c : Category), c.datasets.Nodup →
      (c.add_dataset now id w).datasets.count id = 1 ∧
      alookup (c.add_dataset now id w).dataset_weights id = some w ∧
      (id ∈ c.datasets → (c.add_dataset now id w).datasets = c.datasets)) ∧
    (∀ (now id : String) (w : ℚ) (m : Mode), m.categories.Nodup →
      (m.add_category now id w).categories.count id = 1 ∧
      alookup (m.add_category now id w).category_weights id = some w ∧
      (id ∈ m.categories → (m.add_category now id w).categories = m.categories)) := by
  have hcat : ∀ (op : CatOp) (c : Category), c.datasets.Nodup →
      (match op with
       | .add now id w => c.add_dataset now id w
       | .remove now id => c.remove_dataset now id).datasets.Nodup := by
    intro op c h
    cases op with
    | add now id w => exact nodup_addMember h
    | remove now id => exact h.erase id
  have hmode : ∀ (op : ModeOp) (m : Mode), m.categories.Nodup →
      (match op with
       | .add now id w => m.add_category now id w
       | .remove now id => m.remove_category now id).categories.Nodup := by
    intro op m h
    cases op with
    | add now id w => exact nodup_addMember h
    | remove now id => exact h.erase id
  refine ⟨?_, ?_, ?_, ?_⟩
  · intro ops
    induction ops with
    | nil => intro c h; exact h
    | cons op rest ih =>
      intro c h
      exact ih _ (hcat op c h)
  · intro ops
    induction ops with
    | nil => intro m h; exact h
    | cons op rest ih =>
      intro m h
      exact ih _ (hmode op m h)
  · intro now id w c h
    exact ⟨count_addMember h, alookup_dictSet_self c.dataset_weights id w,
      fun hm => by simp [Category.add_dataset, hm]⟩
  · intro now id w m h
    exact ⟨count_addMember h, alookup_dictSet_self m.category_weights id w,
      fun hm => by simp [Mode.add_category, hm]⟩

/-- C10 witness: the invariant theorem applied to a concrete category,
including the already-present update case. -/
theorem C10_membership_invariant_witness :
    (Category.mk "C" ["a"] [("a", 2)] "t").datasets.Nodup ∧
    ((Category.mk "C" ["a"] [("a", 2)] "t").add_dataset "t1" "a" 5).datasets.count "a" = 1 ∧
    alookup ((Category.mk "C" ["a"] [("a", 2)] "t").add_dataset "t1" "a" 5).dataset_weights "a" = some 5 ∧
    ((Category.mk "C" ["a"] [("a", 2)] "t").add_dataset "t1" "a" 5).datasets =
      (Category.mk "C" ["a"] [("a", 2)] "t").datasets := by
  have h : (Category.mk "C" ["a"] [("a", 2)] "t").datasets.Nodup := by decide
  have := C10_membership_invariant.2.2.1 "t1" "a" 5 (Category.mk "C" ["a"] [("a", 2)] "t") h
  exact ⟨h, this.1, this.2.1, this.2.2 (by decide)⟩

/-! ## Deletion and orphan references -/

theorem alookup_eq_none {α : Type} {m : List (String × α)} {k : String}
    (h : k ∉ m.map Prod.fst) : alookup m k = none := by
  induction m with
  | nil => rfl
  | cons p rest ih =>
    simp only [List.map_cons, List.mem_cons] at h
    push_neg at h
    simp only [alookup, ih h.2, if_neg (show p.1 ≠ k from fun hh => h.1 hh.symm)]

theorem alookup_dictDel_self {α : Type} (m : List (String × α)) (k : String)
    (h : (m.map Prod.fst).Nodup) : alookup (dictDel m k) k = none := by
  induction m with
  | nil => rfl
  | cons p rest ih =>
    simp only [List.map_cons, List.nodup_cons] at h
    by_cases hk : p.1 = k
    · simp only [dictDel, if_pos hk]
      exact alookup_eq_none (hk ▸ h.1)
    · simp only [dictDel, if_neg hk, alookup, if_neg hk]
      exact ih h.2

/-- The concrete dataset of the deletion scenario. -/
def c8_dataset : DatasetM :=
  ⟨"DS", ["f"], [("f", "quantitative")], [("f", 1)]⟩

/-- A well-formed category referencing the dataset id `"d1"`. -/
def c8_category : Category := ⟨"Cat", ["d1"], [("d1", 1)], "t0"⟩

/-- Stores holding that dataset (under id `"d1"`) and that category. -/
def c8_state : HierarchyState := ⟨[("d1", c8_dataset)], [("c1", c8_category)]⟩

/-- C8: the as-written claim fails: deleting the referenced dataset
succeeds and leaves the category untouched, but the subsequent
`validate()` on the category returns no errors at all — the dangling
`"d1"` reference is not reported. -/
theorem C8_counterexample :
    (delete_dataset c8_state "d1").1 = true ∧
    (delete_dataset c8_state "d1").2.categories = c8_state.categories ∧
    alookup (delete_dataset c8_state "d1").2.datasets "d1" = none ∧
    "d1" ∈ c8_category.datasets ∧
    Category.validate c8_category = [] := by
  refine ⟨rfl, rfl, rfl, by decide, ?_⟩
  have hA : pyStrip "Cat" ≠ "" := by decide
  have hD : ¬ (|(1 : ℚ) - 1| > 1/100) := by norm_num
  simp [Category.validate, c8_category, sumVals, alookup, hA, hD]

/-- C8 (amended): deleting a Dataset referenced by a Category succeeds,
removes only the dataset-store entry and leaves the category store
untouched; a subsequent `validate()` on the Category does *not* report the
dangling id: its errors can only concern the name, empty membership, a
member missing a weight entry, or the weight sum (referential checks are
done by managers on create/update only). -/
theorem C8_delete_dataset_no_cascade :
    (∀ (st : HierarchyState) (id : String), (alookup st.datasets id).isSome →
      (delete_dataset st id).1 = true ∧
      (delete_dataset st id).2.categories = st.categories) ∧
    (∀ (st : HierarchyState) (id : String), (st.datasets.map Prod.fst).Nodup →
      alookup (delete_dataset st id).2.datasets id = none) ∧
    (∀ (c : Category) (e : VError), e ∈ c.validate →
      e = .categoryNameRequired ∨ e = .mustContainDataset ∨
      (∃ i, e = .datasetMissingWeight i ∧ i ∈ c.datasets ∧ alookup c.dataset_weights i = none) ∨
      e = .datasetWeightSum (sumVals c.dataset_weights)) := by
  refine ⟨?_, ?_, ?_⟩
  · intro st id h
    refine ⟨?_, ?_⟩ <;> simp [delete_dataset, h]
  · intro st id h
    by_cases hs : (alookup st.datasets id).isSome
    · simp only [delete_dataset, if_pos hs]
      exact alookup_dictDel_self st.datasets id h
    · simp only [delete_dataset, if_neg hs]
      simpa using hs
  · intro c e he
    simp only [Category.validate, List.mem_append, List.mem_filterMap] at he
    rcases he with ((h1 | h2) | h3) | h4
    · left
      by_cases hn : pyStrip c.name = "" <;> simp [hn] at h1
      exact h1
    · right; left
      by_cases hd : c.datasets = [] <;> simp [hd] at h2
      exact h2
    · right; right; left
      obtain ⟨i, hi, hif⟩ := h3
      by_cases hw : alookup c.dataset_weights i = none
      · simp only [if_pos hw, Option.some.injEq] at hif
        exact ⟨i, hif.symm, hi, hw⟩
      · simp [hw] at hif
    · right; right; right
      by_cases hs : |sumVals c.dataset_weights - 1| > 1/100
      · simp only [if_pos hs, List.mem_singleton] at h4
        exact h4
      · simp only [if_neg hs, List.not_mem_nil] at h4

/-- C8 witness: the amended theorem applied to the concrete deletion
scenario. -/
theorem C8_delete_dataset_no_cascade_witness :
    (delete_dataset c8_state "d1").1 = true ∧
    (delete_dataset c8_state "d1").2.categories = c8_state.categories ∧
    alookup (delete_dataset c8_state "d1").2.datasets "d1" = none :=
  ⟨(C8_delete_dataset_no_cascade.1 c8_state "d1" (by decide)).1,
   (C8_delete_dataset_no_cascade.1 c8_state "d1" (by decide)).2,
   C8_delete_dataset_no_cascade.2.1 c8_state "d1" (by decide)⟩

/-! ## Weight-sum validation -/

/-- C2: the as-written claim fails on `normalize_grades`, whose tolerance is
the strict `1e-6`, not `0.01`: the map `{a: 1.005}` sums to within `0.01` of
`1.0` yet is rejected, and the rejection error of `create_dataset_json` is
one fixed string — two maps with different sums get the identical message,
so the actual sum is not reported. -/
theorem C2_counterexample :
    |sumGrades [("a", some (201/200))] - 1| ≤ 1/100 ∧
    normalize_grades [("a", some (201/200))] = false ∧
    create_dataset_json_check [("a", some (201/200))] =
      .error "Field grades are not normalized; they must sum to 1." ∧
    create_dataset_json_check [("a", some (3/2))] =
      .error "Field grades are not normalized; they must sum to 1." := by
  have h1 : sumGrades [("a", some (201/200))] = 201/200 := by
    simp [sumGrades]
  have h2 : normalize_grades [("a", some (201/200))] = false := by
    rw [normalize_grades, h1, decide_eq_false_iff_not]
    norm_num
    rw [abs_of_pos] <;> norm_num
  have h3 : normalize_grades [("a", some (3/2))] = false := by
    have h32 : sumGrades [("a", some (3/2))] = 3/2 := by simp [sumGrades]
    rw [normalize_grades, h32, decide_eq_false_iff_not]
    norm_num
    rw [abs_of_pos] <;> norm_num
  have habs : |sumGrades [("a", some (201/200))] - 1| ≤ 1/100 := by
    rw [h1]
    norm_num
    rw [abs_of_pos] <;> norm_num
  refine ⟨habs, h2, ?_, ?_⟩
  · rw [create_dataset_json_check, h2]
    rfl
  · rw [create_dataset_json_check, h3]
    rfl

/-- C2 (amended): the entity-level check (`Dataset.validate`) accepts a
weight map exactly when its sum is within `0.01` of `1.0` and, on
rejection, the emitted error carries the actual sum (and nothing but the
actual sum); the grade validator (`normalize_grades`) instead accepts
exactly when the sum (`None` counted as 0) is within the strict `1e-6` of
`1.0`, and its caller's `ValueError` is a fixed message carrying no sum. -/
theorem C2_weight_validator :
    (∀ d : DatasetM,
      VError.fieldWeightSum (sumVals d.field_weights) ∈ d.validate ↔
        |sumVals d.field_weights - 1| > 1/100) ∧
    (∀ (d : DatasetM) (t : ℚ), VError.fieldWeightSum t ∈ d.validate →
      t = sumVals d.field_weights) ∧
    (∀ g, normalize_grades g = true ↔ |sumGrades g - 1| < 1/1000000) ∧
    (∀ g, normalize_grades g = false →
      create_dataset_json_check g =
        .error "Field grades are not normalized; they must sum to 1.") := by
  have hchar : ∀ (d : DatasetM) (t : ℚ), VError.fieldWeightSum t ∈ d.validate →
      t = sumVals d.field_weights ∧ |sumVals d.field_weights - 1| > 1/100 := by
    intro d t h
    simp only [DatasetM.validate, List.mem_append, List.mem_filterMap] at h
    rcases h with ((h1 | h2) | h3) | h4
    · by_cases hn : pyStrip d.name = "" <;> simp [hn] at h1
    · by_cases hf : d.selected_fields = [] <;> simp [hf] at h2
    · obtain ⟨f, _, hif⟩ := h3
      by_cases hw : alookup d.field_weights f = none <;> simp [hw] at hif
    · by_cases hs : |sumVals d.field_weights - 1| > 1/100
      · simp only [if_pos hs, List.mem_singleton] at h4
        exact ⟨(VError.fieldWeightSum.injEq _ _).mp h4, hs⟩
      · simp only [if_neg hs, List.not_mem_nil] at h4
  refine ⟨?_, ?_, ?_, ?_⟩
  · intro d
    constructor
    · intro h
      exact (hchar d _ h).2
    · intro h
      have hmem : VError.fieldWeightSum (sumVals d.field_weights) ∈
          (if |sumVals d.field_weights - 1| > 1/100 then
            [VError.fieldWeightSum (sumVals d.field_weights)] else []) := by
        rw [if_pos h]
        exact List.mem_singleton_self _
      exact List.mem_append_right _ hmem
  · intro d t h
    exact (hchar d t h).1
  · intro g
    rw [normalize_grades, decide_eq_true_iff]
  · intro g h
    rw [create_dataset_json_check, h]
    rfl

/-- C2 witness: the amended theorem at a concrete dataset whose field
weights sum to 0.5 (rejected, with the sum reported) and at a concrete
grade map (tight tolerance). -/
theorem C2_weight_validator_witness :
    (|sumVals (DatasetM.mk "D" ["f"] [("f", "quantitative")] [("f", 1/2)]).field_weights - 1| > 1/100 ∧
      VError.fieldWeightSum
          (sumVals (DatasetM.mk "D" ["f"] [("f", "quantitative")] [("f", 1/2)]).field_weights) ∈
        (DatasetM.mk "D" ["f"] [("f", "quantitative")] [("f", 1/2)]).validate) ∧
    normalize_grades [("a", some 1), ("b", none)] = true := by
  have hs : |sumVals (DatasetM.mk "D" ["f"] [("f", "quantitative")] [("f", 1/2)]).field_weights - 1| > 1/100 := by
    have hv : sumVals (DatasetM.mk "D" ["f"] [("f", "quantitative")] [("f", 1/2)]).field_weights = 1/2 := by
      simp [sumVals]
    rw [hv, abs_sub_comm, abs_of_pos] <;> norm_num
  refine ⟨⟨hs, (C2_weight_validator.1 _).mpr hs⟩, ?_⟩
  exact (C2_weight_validator.2.2.1 [("a", some 1), ("b", none)]).mpr (by norm_num [sumGrades])

/-! ## Attribute-table contributions -/

theorem attr_foldl_no_match (aw : List (String × ℚ)) (v : String)
    (h : alookup aw v = none) (acc : ℚ) :
    aw.foldl (fun acc p => if v = p.1 then p.2 / 100 else acc) acc = acc := by
  induction aw generalizing acc with
  | nil => rfl
  | cons p rest ih =>
    simp only [alookup] at h
    by_cases hk : p.1 = v
    · simp [hk] at h
    · simp only [if_neg hk] at h
      simp only [List.foldl_cons, if_neg (show v ≠ p.1 from fun hh => hk hh.symm)]
      exact ih h acc

theorem ensure_valid_weight_zero : ensure_valid_weight 0 = 0 := by
  rw [ensure_valid_weight, if_neg (by norm_num), max_self, round4, roundHalfEven]
  norm_num

/-- C5: a qualitative value with no entry in the attribute weight table
contributes exactly 0 (with no error), and a value with an entry
contributes that entry's weight divided by 100; likewise the pipeline's
`compute_row_weight` gives a field whose value has no weight entry a zero
term. -/
theorem C5_attribute_weight_lookup :
    (∀ (aw : List (String × ℚ)) (v : String), alookup aw v = none →
      calculate_attribute_weighted_score aw v = 0) ∧
    (∀ (aw : List (String × ℚ)) (v : String) (w : ℚ), (aw.map Prod.fst).Nodup →
      alookup aw v = some w → calculate_attribute_weighted_score aw v = w / 100) ∧
    (∀ (fc : WeightingField) (row : List (String × String)) (field : String),
      alookup fc.weights (pyStrip ((alookup row field).getD "")) = none →
      rowFieldTerm fc row field = 0) := by
  refine ⟨?_, ?_, ?_⟩
  · intro aw v h
    exact attr_foldl_no_match aw v h 0
  · intro aw v w hnd h
    induction aw with
    | nil => simp [alookup] at h
    | cons p rest ih =>
      simp only [List.map_cons, List.nodup_cons] at hnd
      by_cases hk : p.1 = v
      · simp only [alookup, if_pos hk, Option.some.injEq] at h
        subst h
        simp only [calculate_attribute_weighted_score, List.foldl_cons,
          if_pos hk.symm]
        exact attr_foldl_no_match rest v (alookup_eq_none (hk ▸ hnd.1)) _
      · simp only [alookup, if_neg hk] at h
        simp only [calculate_attribute_weighted_score, List.foldl_cons,
          if_neg (show v ≠ p.1 from fun hh => hk hh.symm)]
        exact ih hnd.2 h
  · intro fc row field h
    rw [rowFieldTerm, h]
    simp only [Option.getD_none, ensure_valid_weight_zero, zero_mul]

/-- C5 witness: the theorem at a concrete table `{X: 50}`: value `"X"`
contributes `50/100`, value `"Y"` contributes `0`; and a concrete
`compute_row_weight` field term with a missing value is `0`. -/
theorem C5_attribute_weight_lookup_witness :
    calculate_attribute_weighted_score [("X", 50)] "X" = 50 / 100 ∧
    calculate_attribute_weighted_score [("X", 50)] "Y" = 0 ∧
    rowFieldTerm (WeightingField.mk [("212111", 308/1000)] (12/100)) [("NAICSCODE", "999999")] "NAICSCODE" = 0 :=
  ⟨C5_attribute_weight_lookup.2.1 [("X", 50)] "X" 50 (by decide) (by decide),
   C5_attribute_weight_lookup.1 [("X", 50)] "Y" (by decide),
   C5_attribute_weight_lookup.2.2 (WeightingField.mk [("212111", 308/1000)] (12/100))
     [("NAICSCODE", "999999")] "NAICSCODE" (by decide)⟩

/-! ## Quantitative normalization bounds -/

theorem foldl_min_le_init (xs : List ℚ) (a : ℚ) : xs.foldl min a ≤ a := by
  induction xs generalizing a with
  | nil => exact le_refl a
  | cons x xs ih => exact le_trans (ih (min a x)) (min_le_left a x)

theorem foldl_min_le_mem {xs : List ℚ} {x : ℚ} (hx : x ∈ xs) (a : ℚ) :
    xs.foldl min a ≤ x := by
  induction xs generalizing a with
  | nil => cases hx
  | cons y ys ih =>
    rcases List.mem_cons.mp hx with h | h
    · subst h
      exact le_trans (foldl_min_le_init ys (min a x)) (min_le_right a x)
    · exact ih h (min a y)

theorem init_le_foldl_max (xs : List ℚ) (a : ℚ) : a ≤ xs.foldl max a := by
  induction xs generalizing a with
  | nil => exact le_refl a
  | cons x xs ih => exact le_trans (le_max_left a x) (ih (max a x))

theorem mem_le_foldl_max {xs : List ℚ} {x : ℚ} (hx : x ∈ xs) (a : ℚ) :
    x ≤ xs.foldl max a := by
  induction xs generalizing a with
  | nil => cases hx
  | cons y ys ih =>
    rcases List.mem_cons.mp hx with h | h
    · subst h
      exact le_trans (le_max_right a x) (init_le_foldl_max ys (max a x))
    · exact ih h (max a y)

theorem listMin_le {l : List ℚ} {m x : ℚ} (hm : listMin l = some m) (hx : x ∈ l) :
    m ≤ x := by
  cases l with
  | nil => cases hm
  | cons y ys =>
    simp only [listMin, Option.some.injEq] at hm
    subst hm
    rcases List.mem_cons.mp hx with h | h
    · subst h
      exact foldl_min_le_init ys x
    · exact foldl_min_le_mem h y

theorem le_listMax {l : List ℚ} {m x : ℚ} (hm : listMax l = some m) (hx : x ∈ l) :
    x ≤ m := by
  cases l with
  | nil => cases hm
  | cons y ys =>
    simp only [listMax, Option.some.injEq] at hm
    subst hm
    rcases List.mem_cons.mp hx with h | h
    · subst h
      exact init_le_foldl_max ys x
    · exact mem_le_foldl_max h y

theorem listMin_eq_none {l : List ℚ} (h : listMin l = none) : l = [] := by
  cases l with
  | nil => rfl
  | cons y ys => cases h

/-- C4: a constant quantitative column (observed max = observed min) makes
every row's normalized contribution exactly `some 0` — never `NaN`
(`none`) and with no division performed — and an empty numeric column
likewise contributes 0; when max > min, the normalized value of an
observed value equals `clamp((v - min)/(max - min), 0, 1)` (the clamp is
vacuous because `min ≤ v ≤ max`). -/
theorem C4_minmax_normalization :
    (∀ (col : List Cell) (cell : Cell) (w : ℚ) (m : ℚ),
      listMin (col.filterMap floatCell) = some m →
      listMax (col.filterMap floatCell) = some m →
      quantNormalized col cell = some 0 ∧ quantContribution col cell w = some 0) ∧
    (∀ (col : List Cell) (cell : Cell) (w mn mx v : ℚ),
      listMin (col.filterMap floatCell) = some mn →
      listMax (col.filterMap floatCell) = some mx →
      mn < mx → floatCell cell = some v → v ∈ col.filterMap floatCell →
      quantNormalized col cell = some (max 0 (min ((v - mn) / (mx - mn)) 1)) ∧
      quantContribution col cell w = some (max 0 (min ((v - mn) / (mx - mn)) 1) * w)) ∧
    (∀ (col : List Cell) (cell : Cell) (w : ℚ),
      listMin (col.filterMap floatCell) = none →
      quantNormalized col cell = some 0 ∧ quantContribution col cell w = some 0) := by
  refine ⟨?_, ?_, ?_⟩
  · intro col cell w m hmin hmax
    have hn : quantNormalized col cell = some 0 := by
      simp [quantNormalized, hmin, hmax, lt_irrefl]
    exact ⟨hn, by simp [quantContribution, hn]⟩
  · intro col cell w mn mx v hmin hmax hlt hcell hv
    have h0 : 0 ≤ (v - mn) / (mx - mn) :=
      div_nonneg (sub_nonneg.mpr (listMin_le hmin hv)) (le_of_lt (sub_pos.mpr hlt))
    have h1 : (v - mn) / (mx - mn) ≤ 1 :=
      (div_le_one (sub_pos.mpr hlt)).mpr (sub_le_sub_right (le_listMax hmax hv) mn)
    have hclamp : max 0 (min ((v - mn) / (mx - mn)) 1) = (v - mn) / (mx - mn) := by
      rw [min_eq_left h1, max_eq_right h0]
    have hn : quantNormalized col cell = some ((v - mn) / (mx - mn)) := by
      simp [quantNormalized, hmin, hmax, if_pos hlt, hcell]
    rw [hclamp]
    exact ⟨hn, by simp [quantContribution, hn]⟩
  · intro col cell w hmin
    have he : col.filterMap floatCell = [] := listMin_eq_none hmin
    have hn : quantNormalized col cell = some 0 := by
      simp [quantNormalized, he, listMin, listMax]
    exact ⟨hn, by simp [quantContribution, hn]⟩

/-- C4 witness: the theorem at the scenario column `[0, 10, 5]` (value 5
normalizes to the clamped 1/2) and at a constant column `[7, 7]`. -/
theorem C4_minmax_normalization_witness :
    quantNormalized [Cell.num 0, Cell.num 10, Cell.num 5] (Cell.num 5) =
      some (max 0 (min ((5 - 0) / (10 - 0)) 1)) ∧
    quantNormalized [Cell.num 7, Cell.num 7] (Cell.num 7) = some 0 :=
  ⟨(C4_minmax_normalization.2.1 [Cell.num 0, Cell.num 10, Cell.num 5] (Cell.num 5)
      1 0 10 5 rfl rfl (by norm_num) rfl (by decide)).1,
   (C4_minmax_normalization.1 [Cell.num 7, Cell.num 7] (Cell.num 7) 1 7 rfl rfl).1⟩

/-! ## Classifier and summarizer behavior -/

theorem predict_parse_some (values : List Cell) (nums : List ℚ)
    (h : parseAll values = some nums) :
    predict_field_type values =
      if (if values.length > 0 then (nums.dedup.length : ℚ) / (values.length : ℚ) else 0) > 1/5
      then ("quantitative", nums.dedup.length, values.length)
      else ("qualitative", values.dedup.length, values.length) := by
  simp only [predict_field_type, h]

theorem predict_parse_none (values : List Cell) (h : parseAll values = none) :
    predict_field_type values = ("qualitative", values.dedup.length, values.length) := by
  simp only [predict_field_type, h]

theorem metrics_parse_none (sqrtQ : ℚ → ℚ) (values : List Cell)
    (h : parseAll values = none) :
    calculate_quantitative_metrics sqrtQ values = none := by
  by_cases hv : values = []
  · simp [calculate_quantitative_metrics, hv]
  · simp only [calculate_quantitative_metrics, if_neg hv, h]

/-- C6: with every kept value parseable, the classifier answers
quantitative exactly when the distinct-numeric-to-total ratio exceeds 0.2,
otherwise qualitative (also on any parse failure); `["1".."5"]` is
quantitative, `["A","B","A","A","B"]` is qualitative, and the empty input
is qualitative with uniqueCount 0. -/
theorem C6_field_classifier :
    (∀ (values : List Cell) (nums : List ℚ), parseAll values = some nums →
      predict_field_type values =
        if (if values.length > 0 then (nums.dedup.length : ℚ) / (values.length : ℚ) else 0) > 1/5
        then ("quantitative", nums.dedup.length, values.length)
        else ("qualitative", values.dedup.length, values.length)) ∧
    (∀ values : List Cell, parseAll values = none →
      predict_field_type values = ("qualitative", values.dedup.length, values.length)) ∧
    predict_field_type
        [Cell.text "1", Cell.text "2", Cell.text "3", Cell.text "4", Cell.text "5"] =
      ("quantitative", 5, 5) ∧
    predict_field_type
        [Cell.text "A", Cell.text "B", Cell.text "A", Cell.text "A", Cell.text "B"] =
      ("qualitative", 2, 5) ∧
    predict_field_type [] = ("qualitative", 0, 0) := by
  refine ⟨predict_parse_some, predict_parse_none, ?_, ?_, ?_⟩
  · have hp : parseAll
        [Cell.text "1", Cell.text "2", Cell.text "3", Cell.text "4", Cell.text "5"] =
        some [1, 2, 3, 4, 5] := by decide
    rw [predict_parse_some _ _ hp]
    have hd : ([1, 2, 3, 4, 5] : List ℚ).dedup = [1, 2, 3, 4, 5] := by decide
    rw [hd]
    norm_num
  · have hp : parseAll
        [Cell.text "A", Cell.text "B", Cell.text "A", Cell.text "A", Cell.text "B"] =
        none := by decide
    rw [predict_parse_none _ hp]
    decide
  · have hp : parseAll ([] : List Cell) = some [] := by decide
    rw [predict_parse_some _ _ hp]
    norm_num

/-- C6 witness: the general classifier equation applied to the concrete
all-numeric list. -/
theorem C6_field_classifier_witness :
    predict_field_type
        [Cell.text "1", Cell.text "2", Cell.text "3", Cell.text "4", Cell.text "5"] =
      ("quantitative", 5, 5) := by
  have hp : parseAll
      [Cell.text "1", Cell.text "2", Cell.text "3", Cell.text "4", Cell.text "5"] =
      some [1, 2, 3, 4, 5] := by decide
  rw [C6_field_classifier.1 _ _ hp]
  have hd : ([1, 2, 3, 4, 5] : List ℚ).dedup = [1, 2, 3, 4, 5] := by decide
  rw [hd]
  norm_num

/-- C7: the summarizer never raises: empty input, a failed conversion, and
an empty filtered list give the explicit no-data result, and a
single-element numeric input gives stddev 0 (with min = max = mean =
median = the element and range 0). -/
theorem C7_metrics_robustness :
    (∀ sqrtQ : ℚ → ℚ, calculate_quantitative_metrics sqrtQ [] = none) ∧
    (∀ (sqrtQ : ℚ → ℚ) (values : List Cell), parseAll values = none →
      calculate_quantitative_metrics sqrtQ values = none) ∧
    (∀ (sqrtQ : ℚ → ℚ) (values : List Cell), parseAll values = some [] →
      calculate_quantitative_metrics sqrtQ values = none) ∧
    (∀ (sqrtQ : ℚ → ℚ) (values : List Cell) (q : ℚ), parseAll values = some [q] →
      calculate_quantitative_metrics sqrtQ values = some ⟨0, q, q, 0, q, q⟩) := by
  refine ⟨?_, metrics_parse_none, ?_, ?_⟩
  · intro sq
    rfl
  · intro sq values h
    by_cases hv : values = []
    · simp [calculate_quantitative_metrics, hv]
    · simp only [calculate_quantitative_metrics, if_neg hv, h, listMax, listMin]
  · intro sq values q h
    have hv : values ≠ [] := by
      intro hv
      rw [hv] at h
      simp [parseAll, keptValues, List.mapM.loop] at h
    simp only [calculate_quantitative_metrics, if_neg hv, h, listMax, listMin,
      List.foldl_nil]
    have hmean : meanQ [q] = q := by
      simp [meanQ]
    have hmed : medianQ [q] = q := by
      simp [medianQ, List.insertionSort, List.orderedInsert]
    simp [hmean, hmed, sub_self]

/-- C7 witness: the summarizer theorem at the concrete one-element input
`["7"]` (with the square root instantiated by the identity). -/
theorem C7_metrics_robustness_witness :
    calculate_quantitative_metrics id [Cell.text "7"] = some ⟨0, 7, 7, 0, 7, 7⟩ :=
  C7_metrics_robustness.2.2.2 id [Cell.text "7"] 7 (by decide)

/-! ## Malformed-value policy -/

theorem statsNumericValues_eq (values : List Cell) :
    statsNumericValues values = values.filterMap floatCell := by
  unfold statsNumericValues
  induction values with
  | nil => rfl
  | cons v rest ih =>
    by_cases hn : v = Cell.null
    · subst hn
      simp [List.filterMap_cons, show floatCell Cell.null = none from rfl, ih]
    · simp [List.filterMap_cons, if_neg hn, ih]

theorem filterMap_filter_isSome {α β : Type} (f : α → Option β) (l : List α) :
    (l.filter (fun v => (f v).isSome)).filterMap f = l.filterMap f := by
  induction l with
  | nil => rfl
  | cons v rest ih =>
    by_cases hs : (f v).isSome
    · obtain ⟨q, hq⟩ := Option.isSome_iff_exists.mp hs
      simp [List.filter_cons, hs, List.filterMap_cons, hq, ih]
    · have hq : f v = none := Option.not_isSome_iff_eq_none.mp hs
      simp [List.filter_cons, hs, List.filterMap_cons, hq, ih]

theorem statsNumericValues_filter (values : List Cell) :
    statsNumericValues (values.filter (fun v => (floatCell v).isSome)) =
      statsNumericValues values := by
  rw [statsNumericValues_eq, statsNumericValues_eq, filterMap_filter_isSome]

/-- C9: the as-written claim fails: one unparseable value does not get
skipped — it flips `predict_field_type` to a wholesale qualitative
fallback (the clean prefix alone classifies quantitative) and collapses
`calculate_quantitative_metrics` to the empty no-data result (the clean
prefix alone yields metrics); only `_calculate_statistics` actually skips
the bad value and computes from the rest. -/
theorem C9_counterexample :
    predict_field_type
        [Cell.text "1", Cell.text "2", Cell.text "3", Cell.text "4", Cell.text "A"] =
      ("qualitative", 5, 5) ∧
    (predict_field_type [Cell.text "1", Cell.text "2", Cell.text "3", Cell.text "4"]).1 =
      "quantitative" ∧
    calculate_quantitative_metrics id [Cell.text "1", Cell.text "2", Cell.text "A"] = none ∧
    calculate_quantitative_metrics id [Cell.text "1", Cell.text "2"] ≠ none ∧
    calculate_statistics_quant id [Cell.text "1", Cell.text "A", Cell.text "2"] =
      calculate_statistics_quant id [Cell.text "1", Cell.text "2"] := by
  refine ⟨?_, ?_, ?_, ?_, rfl⟩
  · have hp : parseAll
        [Cell.text "1", Cell.text "2", Cell.text "3", Cell.text "4", Cell.text "A"] =
        none := by decide
    rw [predict_parse_none _ hp]
    decide
  · have hp : parseAll [Cell.text "1", Cell.text "2", Cell.text "3", Cell.text "4"] =
        some [1, 2, 3, 4] := by decide
    rw [predict_parse_some _ _ hp]
    have hd : ([1, 2, 3, 4] : List ℚ).dedup = [1, 2, 3, 4] := by decide
    rw [hd]
    norm_num
  · exact metrics_parse_none id _ (by decide)
  · have hp : parseAll [Cell.text "1", Cell.text "2"] = some [1, 2] := by decide
    simp [calculate_quantitative_metrics, hp, listMax, listMin]

/-- C9 (amended): classification and summarization never raise on a
malformed value, but they abandon numeric processing wholesale
(qualitative fallback / no-data result) instead of skipping it;
`GeoJSONProcessor._calculate_statistics` is the routine that skips
unparseable values individually: its result is unchanged when the
unparseable values are removed from the input. -/
theorem C9_malformed_value_policy :
    (∀ values : List Cell, parseAll values = none →
      predict_field_type values = ("qualitative", values.dedup.length, values.length)) ∧
    (∀ (sqrtQ : ℚ → ℚ) (values : List Cell), parseAll values = none →
      calculate_quantitative_metrics sqrtQ values = none) ∧
    (∀ (sqrtQ : ℚ → ℚ) (values : List Cell),
      calculate_statistics_quant sqrtQ (values.filter (fun v => (floatCell v).isSome)) =
        calculate_statistics_quant sqrtQ values) := by
  refine ⟨predict_parse_none, metrics_parse_none, ?_⟩
  intro sq values
  simp only [calculate_statistics_quant, statsNumericValues_filter]

/-- C9 witness: the amended policy at concrete inputs: `["A"]` classifies
qualitative and yields no metrics; statistics over `["1","A","2"]` equal
those over the parseable subset. -/
theorem C9_malformed_value_policy_witness :
    predict_field_type [Cell.text "A"] = ("qualitative", 1, 1) ∧
    calculate_quantitative_metrics id [Cell.text "A"] = none ∧
    calculate_statistics_quant id
        ([Cell.text "1", Cell.text "A", Cell.text "2"].filter (fun v => (floatCell v).isSome)) =
      calculate_statistics_quant id [Cell.text "1", Cell.text "A", Cell.text "2"] :=
  ⟨C9_malformed_value_policy.1 [Cell.text "A"] (by decide),
   C9_malformed_value_policy.2.1 id [Cell.text "A"] (by decide),
   C9_malformed_value_policy.2.2 id [Cell.text "1", Cell.text "A", Cell.text "2"]⟩

/-! ## Dataset score as a sum of field contributions -/

theorem foldl_optAdd_eq_sum (f : String × ℚ → Option ℚ) (l : List (String × ℚ))
    (init : ℚ) (h : ∀ p ∈ l, (f p).isSome) :
    l.foldl (fun acc p => optAdd acc (f p)) (some init) =
      some (init + (l.map (fun p => (f p).getD 0)).sum) := by
  induction l generalizing init with
  | nil => simp
  | cons p rest ih =>
    obtain ⟨q, hq⟩ := Option.isSome_iff_exists.mp (h p (List.mem_cons_self p rest))
    have h1 : optAdd (some init) (f p) = some (init + q) := by
      rw [hq]
      rfl
    have h2 : (p :: rest).foldl (fun acc p => optAdd acc (f p)) (some init) =
        rest.foldl (fun acc p => optAdd acc (f p)) (optAdd (some init) (f p)) := rfl
    rw [h2, h1, ih (init + q) (fun p hp => h p (List.mem_cons_of_mem _ hp))]
    simp [hq, add_assoc]

/-- The end-to-end scenario's dataset configuration: `risk` quantitative
with weight 0.6, `type` qualitative with weight 0.4 and attribute table
`{X: 50}`. -/
def c1_config : DatasetConfig :=
  ⟨["risk", "type"],
   [("risk", 6/10), ("type", 4/10)],
   [("risk", "quantitative"), ("type", "qualitative")],
   [("type", ⟨[("X", 50)]⟩)]⟩

/-- The scenario's table: `risk` observes 0, 10 and 5 (stats min 0, max
10); the feature at row 2 has `risk = 5`, `type = "X"`. -/
def c1_table : List (String × List Cell) :=
  [("risk", [Cell.num 0, Cell.num 10, Cell.num 5]),
   ("type", [Cell.text "Y", Cell.text "Z", Cell.text "X"])]

/-- C1: the per-feature dataset score is the sum over the weighted fields
of each field's contribution (normalized value × weight for quantitative
fields, attribute-weight/100 × weight for qualitative fields); on the
spec's scenario the feature with `risk = 5`, `type = "X"` scores
`(5/10)*0.6 + (50/100)*0.4 = 0.5`. -/
theorem C1_dataset_score :
    (∀ (cfg : DatasetConfig) (tbl : List (String × List Cell)) (row : ℕ),
      (∀ p ∈ cfg.field_weights,
        (fieldContribution cfg (tbl.filter (fun c => cfg.selected_fields.contains c.1))
          row p.1 p.2).isSome) →
      processRowScore cfg tbl row =
        some ((cfg.field_weights.map (fun p =>
          (fieldContribution cfg (tbl.filter (fun c => cfg.selected_fields.contains c.1))
            row p.1 p.2).getD 0)).sum)) ∧
    fieldContribution c1_config
        (c1_table.filter (fun c => c1_config.selected_fields.contains c.1)) 2
        "risk" (6/10) = some ((5/10) * (6/10)) ∧
    fieldContribution c1_config
        (c1_table.filter (fun c => c1_config.selected_fields.contains c.1)) 2
        "type" (4/10) = some ((50/100) * (4/10)) ∧
    processRowScore c1_config c1_table 2 = some (1/2) := by
  have hgen : ∀ (cfg : DatasetConfig) (tbl : List (String × List Cell)) (row : ℕ),
      (∀ p ∈ cfg.field_weights,
        (fieldContribution cfg (tbl.filter (fun c => cfg.selected_fields.contains c.1))
          row p.1 p.2).isSome) →
      processRowScore cfg tbl row =
        some ((cfg.field_weights.map (fun p =>
          (fieldContribution cfg (tbl.filter (fun c => cfg.selected_fields.contains c.1))
            row p.1 p.2).getD 0)).sum) := by
    intro cfg tbl row h
    have := foldl_optAdd_eq_sum
      (fun p => fieldContribution cfg (tbl.filter (fun c => cfg.selected_fields.contains c.1))
        row p.1 p.2) cfg.field_weights 0 h
    simpa [processRowScore] using this
  have hmn : listMin ([Cell.num 0, Cell.num 10, Cell.num 5].filterMap floatCell) = some 0 := by
    show listMin [0, 10, 5] = some 0
    norm_num [listMin, min_def]
  have hmx : listMax ([Cell.num 0, Cell.num 10, Cell.num 5].filterMap floatCell) = some 10 := by
    show listMax [0, 10, 5] = some 10
    norm_num [listMax, max_def]
  have hrisk : fieldContribution c1_config
      (c1_table.filter (fun c => c1_config.selected_fields.contains c.1)) 2
      "risk" (6/10) = some ((5/10) * (6/10)) := by
    have hq : quantNormalized [Cell.num 0, Cell.num 10, Cell.num 5] (Cell.num 5) =
        some (5/10) := by
      simp only [quantNormalized, hmn, hmx]
      norm_num
      exact ⟨5, rfl, by norm_num⟩
    simp [fieldContribution, c1_config, c1_table, alookup, quantContribution, hq]
  have htype : fieldContribution c1_config
      (c1_table.filter (fun c => c1_config.selected_fields.contains c.1)) 2
      "type" (4/10) = some ((50/100) * (4/10)) := by
    simp [fieldContribution, c1_config, c1_table, alookup, cellStr,
      calculate_attribute_weighted_score]
  refine ⟨hgen, hrisk, htype, ?_⟩
  have hsome : ∀ p ∈ c1_config.field_weights,
      (fieldContribution c1_config
        (c1_table.filter (fun c => c1_config.selected_fields.contains c.1)) 2
        p.1 p.2).isSome := by
    intro p hp
    have : p = ("risk", 6/10) ∨ p = ("type", 4/10) := by
      simpa [c1_config] using hp
    rcases this with h | h <;> subst h
    · rw [hrisk]; rfl
    · rw [htype]; rfl
  rw [hgen c1_config c1_table 2 hsome]
  have hmap : c1_config.field_weights.map (fun p =>
      (fieldContribution c1_config
        (c1_table.filter (fun c => c1_config.selected_fields.contains c.1)) 2
        p.1 p.2).getD 0) = [(5/10) * (6/10), (50/100) * (4/10)] := by
    show List.map _ [("risk", (6:ℚ)/10), ("type", (4:ℚ)/10)] = _
    rw [List.map_cons, List.map_cons, List.map_nil]
    rw [show (("risk", (6:ℚ)/10) : String × ℚ).1 = "risk" from rfl]
    rw [hrisk, htype]
    rfl
  rw [hmap]
  norm_num

/-- C1 witness: the general sum equation applied to the concrete scenario
configuration and table, with every field contribution defined. -/
theorem C1_dataset_score_witness :
    processRowScore c1_config c1_table 2 =
      some ((c1_config.field_weights.map (fun p =>
        (fieldContribution c1_config
          (c1_table.filter (fun c => c1_config.selected_fields.contains c.1)) 2
          p.1 p.2).getD 0)).sum) := by
  apply C1_dataset_score.1 c1_config c1_table 2
  intro p hp
  have : p = ("risk", 6/10) ∨ p = ("type", 4/10) := by
    simpa [c1_config] using hp
  rcases this with h | h <;> subst h
  · rw [C1_dataset_score.2.1]; rfl
  · rw [C1_dataset_score.2.2.1]; rfl

end CIEngine
